import Mathlib

/-!
Verification development for the yaboli euphoria client library, centred on the
Connection/Room protocol engine (src/yaboli/connection.py and src/yaboli/room.py).

Conventions of the embedding:
- Packet ids are stringified integers in the source (`str(self._packet_id)`);
  stringification is injective, so ids are modelled as `Nat`.
- Nicks, passcodes, user ids, server ids and server eras are opaque strings in
  the source; they are modelled as `Nat` values.  The empty string (falsy in
  Python truth tests such as `if self._target_nick`) is modelled as `0` where
  the source relies on truthiness.
- An `asyncio.Future` is modelled by its externally observable state
  (`FutState`): pending, resolved via `set_result`, or resolved via
  `set_exception(ConnectionClosedException())`.  Both `set_result` and
  `set_exception` raise `asyncio.InvalidStateError` when the future is already
  done; that error is modelled explicitly.
- A Python `dict` is modelled as an insertion-ordered association list, which
  matches dict iteration order.
-/

/-- Observable state of an `asyncio.Future` held in `Connection._awaiting_replies`. -/
inductive FutState where
  | pending
  | resolvedOk
  | resolvedErr
deriving DecidableEq, Repr, BEq

/-- Python-level exceptions that the modelled code can raise. -/
inductive PyError where
  | invalidStateError
  | attributeError
  | incorrectStateException
  | connectionClosedException
deriving DecidableEq, Repr, BEq

/-- The five values of `Connection._state` (connection.py 91-96). -/
inductive ConnState where
  | notRunning
  | connecting
  | running
  | reconnecting
  | disconnecting
deriving DecidableEq, Repr, BEq

/-- The `_awaiting_replies` dict: packet id to reply future, in insertion order. -/
abbrev ReplyTable := List (Nat × FutState)

/-- Dict lookup `self._awaiting_replies.get(packet_id, None)`. -/
def tableLookup (t : ReplyTable) (pid : Nat) : Option FutState :=
  match t with
  | [] => none
  | (i, f) :: rest => if i = pid then some f else tableLookup rest pid

/-- Dict assignment `self._awaiting_replies[packet_id] = future`: replace in
place when the key exists, append otherwise. -/
def tableSet (t : ReplyTable) (pid : Nat) (f : FutState) : ReplyTable :=
  match t with
  | [] => [(pid, f)]
  | (i, g) :: rest => if i = pid then (i, f) :: rest else (i, g) :: tableSet rest pid f

/-- The fields of `Connection` that the verified claims are about
(connection.py 100-123).  `ws` is `self._ws is not None`, `pingCheck` is
`self._ping_check is not None`; `closeCount` counts invocations of the
transport close operation `self._ws.close()`. -/
structure Connection where
  state : ConnState
  packetId : Nat
  ws : Bool
  awaitingReplies : Option ReplyTable
  pingCheck : Bool
  closeCount : Nat
deriving DecidableEq, Repr

deriving instance DecidableEq for Except

/-- Behaviour of `asyncio.Future.set_result`: raises `InvalidStateError` when already done. -/
def Future.setResult : FutState → Except PyError FutState
  | .pending => .ok .resolvedOk
  | _ => .error .invalidStateError

/-- Behaviour of `asyncio.Future.set_exception(ConnectionClosedException())`: raises
`InvalidStateError` when already done. -/
def Future.setException : FutState → Except PyError FutState
  | .pending => .ok .resolvedErr
  | _ => .error .invalidStateError

/-- An incoming packet, reduced to the field `_process_packet` correlates on:
`packet.get("id", None)`. -/
structure Packet where
  pid : Option Nat
deriving DecidableEq, Repr

/-- Embeds `Connection._process_packet` (connection.py 436-456).  First the
reply future matching the packet id, if any, is resolved via `set_result`
(the entry is NOT removed from the table).  The named event is then fired
(not modelled).  Finally the ping check is reset: the cancel of the old task
is guarded by `is not None`, but the assignment of the fresh task is
unconditional. -/
def Connection.processPacket (c : Connection) (p : Packet) : Except PyError Connection := do
  let c1 ← match p.pid, c.awaitingReplies with
    | some pid, some tbl =>
      match tableLookup tbl pid with
      | some fut => do
          let fut2 ← Future.setResult fut
          pure { c with awaitingReplies := some (tableSet tbl pid fut2) }
      | none => pure c
    | _, _ => pure c
  pure { c1 with pingCheck := true }

/-- The loop `for future in self._awaiting_replies.values():
future.set_exception(ConnectionClosedException())` of `_disconnect`
(connection.py 160-162).  Returns the table after the loop together with
whether an `InvalidStateError` was raised; the loop stops at the first future
that is already done, leaving later entries untouched. -/
def failAll : ReplyTable → ReplyTable × Bool
  | [] => ([], false)
  | (i, .pending) :: rest =>
      let r := failAll rest
      ((i, .resolvedErr) :: r.1, r.2)
  | (i, f) :: rest => ((i, f) :: rest, true)

/-- Embeds `Connection._disconnect` (connection.py 139-170) executed without
interference from other tasks: close the websocket if present, re-check
(still present in an uninterleaved run), fail every future in the table,
cancel the ping check and clear all three fields.  The second component is
the exception propagated out of `_disconnect`, if any; when it is raised the
remaining lines do not run, so `ws`, the partially mutated table and
`pingCheck` are left in place. -/
def Connection.disconnectCleanup (c : Connection) : Connection × Option PyError :=
  if c.ws then
    let c1 : Connection := { c with closeCount := c.closeCount + 1 }
    match c1.awaitingReplies with
    | none => (c1, some .attributeError)
    | some tbl =>
      let r := failAll tbl
      if r.2 then ({ c1 with awaitingReplies := some r.1 }, some .invalidStateError)
      else ({ c1 with ws := false, awaitingReplies := none, pingCheck := false }, none)
  else
    (c, none)

/-- Embeds the synchronous prefix of `Connection.send` (connection.py 516-538):
the state guard, the id allocation and the registration of the reply future.
Transmission and the wait for the reply are not part of this prefix. -/
def Connection.sendRegister (c : Connection) (awaitReply : Bool) :
    Except PyError (Connection × Nat) :=
  if c.state ≠ ConnState.running then .error .incorrectStateException
  else
    match c.awaitingReplies, c.ws with
    | some tbl, true =>
      let pid := c.packetId
      let c1 := { c with packetId := c.packetId + 1 }
      if awaitReply then
        .ok ({ c1 with awaitingReplies := some (tableSet tbl pid FutState.pending) }, pid)
      else
        .ok (c1, pid)
    | _, _ => .error .incorrectStateException

/-- A Connection immediately after a successful `connect()`
(connection.py 172-197, 236-282): state RUNNING, fresh websocket, empty
reply table, ping watchdog armed. -/
def Connection.afterConnect : Connection :=
  { state := ConnState.running, packetId := 0, ws := true,
    awaitingReplies := some [], pingCheck := true, closeCount := 0 }

/-- The invariant documented at connection.py 117-118: `_ws`,
`_awaiting_replies` and `_ping_check` "must always be (re)set together.
If one of them is None, all must be None." -/
def Connection.unitTogether (c : Connection) : Bool :=
  (c.ws && c.awaitingReplies.isSome && c.pingCheck) ||
  (!c.ws && c.awaitingReplies.isNone && !c.pingCheck)

/-- The connection after `send(..., await_reply=True)` on a fresh running
connection has allocated packet id 0 and registered its pending reply future. -/
def connAfterSend : Connection :=
  { state := ConnState.running, packetId := 1, ws := true,
    awaitingReplies := some [(0, FutState.pending)], pingCheck := true, closeCount := 0 }

/-- The connection after the matching reply (packet id 0) was processed by
`_process_packet`: the future is resolved, but its entry is still in the table. -/
def connAfterReply : Connection :=
  { state := ConnState.running, packetId := 1, ws := true,
    awaitingReplies := some [(0, FutState.resolvedOk)], pingCheck := true, closeCount := 0 }

/-- The connection after two awaited sends (ids 0 and 1) on a fresh running
connection. -/
def connTwoSends : Connection :=
  { state := ConnState.running, packetId := 2, ws := true,
    awaitingReplies := some [(0, FutState.pending), (1, FutState.pending)],
    pingCheck := true, closeCount := 0 }

/-- State of `connTwoSends` after the reply for id 0 arrived: id 0 resolved (entry kept),
id 1 still pending. -/
def connTwoSendsReplied : Connection :=
  { state := ConnState.running, packetId := 2, ws := true,
    awaitingReplies := some [(0, FutState.resolvedOk), (1, FutState.pending)],
    pingCheck := true, closeCount := 0 }

/-- The connection obtained by running `_process_packet` on a frame after a
concurrent `_disconnect` already finished its cleanup: the ping-check task has
been re-installed although `_ws` and `_awaiting_replies` are `None`. -/
def connBrokenUnit : Connection :=
  { state := ConnState.running, packetId := 0, ws := false,
    awaitingReplies := none, pingCheck := true, closeCount := 1 }

/-! ### A small-step model of concurrent `disconnect()` calls

`Connection.disconnect` (connection.py 284-355) suspends at well-defined
points; between two suspension points its code runs atomically (one asyncio
event loop).  The model below runs two `disconnect()` calls plus the
background event loop's exit as interleaved tasks.  Each task step is one
atomic segment of the source:

- `start`: the `while` loop header, the NOT_RUNNING early return, the
  DISCONNECTING wait branch and the RUNNING branch through
  `self._state = self._DISCONNECTING` contain no `await` between observing
  the state and acting on it, so each is one atomic step.
- `tdClose`: the first half of `_disconnect` up to `await self._ws.close()`
  (or, when `_ws` is `None`, the whole of `_disconnect`, which then runs
  without any await).
- `tdCleanup`: the second half of `_disconnect` after the close: the re-check
  of `_ws`, the `set_exception` loop and the clearing of the three fields.
- `waitLoop`: `await self._event_loop`, enabled once the loop task exited,
  followed by `self._state = self._NOT_RUNNING` and the notify.
- `waitDisc`: parked in `self._disconnected_condition.wait()`, woken once the
  state reaches NOT_RUNNING (the notify at connection.py 352-353 happens
  right after the state is set, with no state change in between).
-/

/-- Program counter of one `disconnect()` call. -/
inductive DPC where
  | start
  | waitConn
  | waitDisc
  | tdClose
  | tdCleanup
  | waitLoop
  | done
  | raised
deriving DecidableEq, Repr

/-- Global state: the shared Connection, the two `disconnect()` calls and
whether the background event loop task has exited. -/
structure Sys where
  conn : Connection
  pc1 : DPC
  pc2 : DPC
  loopDone : Bool
deriving DecidableEq, Repr

/-- One atomic step of a `disconnect()` call (connection.py 284-355, with
`_disconnect` inlined at the `await self._disconnect()` of line 340).
`none` means the task is parked or finished. -/
def disconnectTaskStep (c : Connection) (pc : DPC) (loopDone : Bool) :
    Option (Connection × DPC) :=
  match pc with
  | .start =>
    match c.state with
    | .connecting => some (c, .waitConn)
    | .reconnecting => some (c, .waitConn)
    | .notRunning => some (c, .done)
    | .disconnecting => some (c, .waitDisc)
    | .running => some ({ c with state := ConnState.disconnecting }, .tdClose)
  | .waitConn => none
  | .waitDisc => if c.state = ConnState.notRunning then some (c, .done) else none
  | .tdClose =>
    if c.ws then some ({ c with closeCount := c.closeCount + 1 }, .tdCleanup)
    else some (c, .waitLoop)
  | .tdCleanup =>
    if c.ws then
      match c.awaitingReplies with
      | none => some (c, .raised)
      | some tbl =>
        let r := failAll tbl
        if r.2 then some ({ c with awaitingReplies := some r.1 }, .raised)
        else some ({ c with ws := false, awaitingReplies := none, pingCheck := false },
                   .waitLoop)
    else some (c, .waitLoop)
  | .waitLoop =>
    if loopDone then some ({ c with state := ConnState.notRunning }, .done) else none
  | .done => none
  | .raised => none

/-- Which task the scheduler runs next. -/
inductive Tid where
  | t1
  | t2
  | evLoop
deriving DecidableEq, Repr

/-- One step of the whole system.  The event loop task (`_run`,
connection.py 391-434) exits at one of its state checks once the state is no
longer RUNNING. -/
def sysStep (s : Sys) : Tid → Option Sys
  | .t1 => (disconnectTaskStep s.conn s.pc1 s.loopDone).map
      fun r => { s with conn := r.1, pc1 := r.2 }
  | .t2 => (disconnectTaskStep s.conn s.pc2 s.loopDone).map
      fun r => { s with conn := r.1, pc2 := r.2 }
  | .evLoop =>
    if s.loopDone = false ∧ s.conn.state ≠ ConnState.running then
      some { s with loopDone := true }
    else none

/-- The scheduler picks any runnable task. -/
def SysStep (s t : Sys) : Prop := ∃ tid, sysStep s tid = some t

/-- Reachability under arbitrary interleaving. -/
def SysReach (s t : Sys) : Prop := Relation.ReflTransGen SysStep s t

/-- Every future in the table is still pending. -/
def allPending (tbl : ReplyTable) : Bool :=
  tbl.all fun e => e.2 = FutState.pending

/-- Two `disconnect()` calls are issued against a running connection whose
reply table is `tbl`; the event loop is still running. -/
def initSys (tbl : ReplyTable) : Sys :=
  { conn := { state := ConnState.running, packetId := 0, ws := true,
              awaitingReplies := some tbl, pingCheck := true, closeCount := 0 },
    pc1 := DPC.start, pc2 := DPC.start, loopDone := false }

/-- A task is inside the teardown region of `disconnect()` (the unique branch
that touches the transport). -/
def inTd (pc : DPC) : Prop :=
  pc = DPC.tdClose ∨ pc = DPC.tdCleanup ∨ pc = DPC.waitLoop

instance (pc : DPC) : Decidable (inTd pc) := by
  unfold inTd; infer_instance

/-- Exchange the two disconnect tasks (the system is symmetric in them). -/
def Sys.swap (s : Sys) : Sys :=
  { conn := s.conn, pc1 := s.pc2, pc2 := s.pc1, loopDone := s.loopDone }

/-- Inductive invariant of the double-disconnect system. -/
structure C8Inv (s : Sys) : Prop where
  tableOk : s.conn.awaitingReplies = none ∨
    ∃ tbl, s.conn.awaitingReplies = some tbl ∧ allPending tbl = true
  noRaise1 : s.pc1 ≠ DPC.raised
  noRaise2 : s.pc2 ≠ DPC.raised
  noWaitConn1 : s.pc1 ≠ DPC.waitConn
  noWaitConn2 : s.pc2 ≠ DPC.waitConn
  closeLe : s.conn.closeCount ≤ 1
  notBoth : ¬(inTd s.pc1 ∧ inTd s.pc2)
  tdState1 : inTd s.pc1 → s.conn.state = ConnState.disconnecting
  tdState2 : inTd s.pc2 → s.conn.state = ConnState.disconnecting
  runningClean : s.conn.state = ConnState.running →
    s.conn.closeCount = 0 ∧ s.conn.ws = true ∧ s.conn.awaitingReplies ≠ none
  close1 : s.pc1 = DPC.tdClose → s.conn.closeCount = 0 ∧ s.conn.awaitingReplies ≠ none
  close2 : s.pc2 = DPC.tdClose → s.conn.closeCount = 0 ∧ s.conn.awaitingReplies ≠ none
  cleanup1 : s.pc1 = DPC.tdCleanup → s.conn.ws = true ∧ s.conn.awaitingReplies ≠ none
  cleanup2 : s.pc2 = DPC.tdCleanup → s.conn.ws = true ∧ s.conn.awaitingReplies ≠ none
  notConnSt : s.conn.state ≠ ConnState.connecting ∧ s.conn.state ≠ ConnState.reconnecting

/-- Double-disconnect scenario where one awaited send already completed: the
connection's table holds the resolved reply future for id 0 (never removed,
see C1).  After the first disconnect task's first step: state DISCONNECTING,
task inside the teardown region. -/
def c8Mid1 : Sys :=
  { conn := { state := ConnState.disconnecting, packetId := 0, ws := true,
              awaitingReplies := some [(0, FutState.resolvedOk)], pingCheck := true,
              closeCount := 0 },
    pc1 := DPC.tdClose, pc2 := DPC.start, loopDone := false }

/-- After the first disconnect task closed the websocket. -/
def c8Mid2 : Sys :=
  { conn := { state := ConnState.disconnecting, packetId := 0, ws := true,
              awaitingReplies := some [(0, FutState.resolvedOk)], pingCheck := true,
              closeCount := 1 },
    pc1 := DPC.tdCleanup, pc2 := DPC.start, loopDone := false }

/-- After the cleanup loop hit the resolved future: `set_exception` raised
`InvalidStateError`, the first `disconnect()` call terminates by raising, the
state is stuck at DISCONNECTING and the second call can never complete. -/
def c8FailSys : Sys :=
  { conn := { state := ConnState.disconnecting, packetId := 0, ws := true,
              awaitingReplies := some [(0, FutState.resolvedOk)], pingCheck := true,
              closeCount := 1 },
    pc1 := DPC.raised, pc2 := DPC.start, loopDone := false }

/-- A not-running Connection with all three transport fields absent. -/
def connNotRunning : Connection :=
  { state := ConnState.notRunning, packetId := 0, ws := false,
    awaitingReplies := none, pingCheck := false, closeCount := 0 }

/-! ### Room handshake model (room.py)

The Room fields that drive `connect()` (room.py 65-111): the configured target
nick and password, the own session's nick, the two handshake booleans and the
connected gate (`self._connected` event plus `self._connected_successfully`).
Nicks and passcodes are `Nat` (strings in the source); a target nick of `0`
models the empty string, which is falsy in `if self._target_nick`.
`sessionNick = none` models `self._session is None`. -/

structure HsRoom where
  targetNick : Nat
  password : Option Nat
  sessionNick : Option Nat
  helloReceived : Bool
  snapshotReceived : Bool
  connectedSet : Bool
  connectedSuccessfully : Bool
deriving DecidableEq, Repr

/-- Externally observable actions of the handshake handlers: packets sent via
`Connection.send` and the setting of the connected gate. -/
inductive HsAction where
  | sendNick (name : Nat)
  | sendAuth (passcode : Nat)
  | setConnected
deriving DecidableEq, Repr

/-- Embeds `Room._set_connected_failed` (room.py 143-146). -/
def HsRoom.setConnectedFailed (r : HsRoom) : HsRoom :=
  if !r.connectedSet then
    { r with connectedSet := true, connectedSuccessfully := false }
  else r

/-- Embeds `Room._set_connected_reset` (room.py 148-152), also run by
`_on_reconnecting` (room.py 154-155). -/
def HsRoom.setConnectedReset (r : HsRoom) : HsRoom :=
  { r with connectedSet := false, connectedSuccessfully := false,
           helloReceived := false, snapshotReceived := false }

/-- Embeds `Room._try_set_connected` together with `_set_nick_if_necessary` and
the nick-command part of `Room._nick` that it awaits (room.py 126-141 and
440-463).  `nickReply` is the server's reply to the `nick` command when one is
sent: `some to` is a success reply with `data.to = to` (after which `_nick`
stores `to` in `_target_nick` and in the session nick), `none` is an error
reply, whose `EuphError` aborts the handler before `_set_connected` runs. -/
def HsRoom.trySetConnected (r : HsRoom) (nickReply : Option Nat) :
    HsRoom × List HsAction :=
  if r.helloReceived && r.snapshotReceived && !r.connectedSet then
    if r.targetNick ≠ 0 ∧ (r.sessionNick = none ∨ some r.targetNick ≠ r.sessionNick) then
      match nickReply with
      | none => (r, [HsAction.sendNick r.targetNick])
      | some newNick =>
        ({ r with targetNick := newNick, sessionNick := r.sessionNick.map fun _ => newNick,
                  connectedSet := true, connectedSuccessfully := true },
         [HsAction.sendNick r.targetNick, HsAction.setConnected])
    else
      ({ r with connectedSet := true, connectedSuccessfully := true },
       [HsAction.setConnected])
  else (r, [])

/-- Embeds `Room._on_hello_event` (room.py 157-168) restricted to the
connect-relevant fields: record the own session, mark hello received, try to
set connected. -/
def HsRoom.onHelloEvent (r : HsRoom) (sessNick : Nat) (nickReply : Option Nat) :
    HsRoom × List HsAction :=
  HsRoom.trySetConnected
    { r with sessionNick := some sessNick, helloReceived := true } nickReply

/-- Embeds `Room._on_snapshot_event` (room.py 170-189) restricted to the
connect-relevant fields: update the session nick from `data.get("nick")` when
both are present, mark snapshot received, try to set connected. -/
def HsRoom.onSnapshotEvent (r : HsRoom) (snapNick : Option Nat)
    (nickReply : Option Nat) : HsRoom × List HsAction :=
  match snapNick, r.sessionNick with
  | some n, some _ =>
    HsRoom.trySetConnected
      { r with sessionNick := some n, snapshotReceived := true } nickReply
  | _, _ =>
    HsRoom.trySetConnected { r with snapshotReceived := true } nickReply

/-- The designated value modelling the auth option string "passcode". -/
def passcodeOpt : Nat := 0

/-- Embeds `Room._on_bounce_event` (room.py 191-213).  `authOptions = none`
models an absent `auth_options` key: `data.get("auth_options", ["passcode"])`
then defaults to a list offering passcode authentication.  `authOk` is
`reply["data"]["success"]` of the auth reply when an auth command is sent. -/
def HsRoom.onBounceEvent (r : HsRoom) (authOptions : Option (List Nat))
    (authOk : Bool) : HsRoom × List HsAction :=
  if !((authOptions.getD [passcodeOpt]).contains passcodeOpt) then
    (r.setConnectedFailed, [])
  else
    match r.password with
    | none => (r.setConnectedFailed, [])
    | some pw =>
      if authOk then (r, [HsAction.sendAuth pw])
      else (r.setConnectedFailed, [HsAction.sendAuth pw])

/-- The spec-side predicate of C5: passcode authentication is offered
(defaulting to offered when `auth_options` is absent). -/
def passcodeOffered (authOptions : Option (List Nat)) : Bool :=
  (authOptions.getD [passcodeOpt]).contains passcodeOpt

/-- The handshake-relevant events a Room receives, with the server-provided
payload pieces the handlers read. -/
inductive HsEvent where
  | hello (sessNick : Nat) (nickReply : Option Nat)
  | snapshot (snapNick : Option Nat) (nickReply : Option Nat)
  | bounce (authOptions : Option (List Nat)) (authOk : Bool)
  | reconnecting
deriving DecidableEq, Repr

/-- Dispatch of one received event to its handler (room.py 96-99). -/
def HsRoom.step (r : HsRoom) : HsEvent → HsRoom × List HsAction
  | .hello n nr => r.onHelloEvent n nr
  | .snapshot sn nr => r.onSnapshotEvent sn nr
  | .bounce ao ok => r.onBounceEvent ao ok
  | .reconnecting => (r.setConnectedReset, [])

/-- Replay a sequence of events, keeping the room state. -/
def HsRoom.replay (r : HsRoom) : List HsEvent → HsRoom
  | [] => r
  | e :: es => HsRoom.replay (r.step e).1 es

/-- A Room as constructed by `Room.__init__` (room.py 65-94): no session yet,
no handshake packet received, gate unset. -/
def HsRoom.mkInit (targetNick : Nat) (password : Option Nat) : HsRoom :=
  { targetNick := targetNick, password := password, sessionNick := none,
    helloReceived := false, snapshotReceived := false,
    connectedSet := false, connectedSuccessfully := false }

/-- Invariant of the Room handshake: the connected gate is never settled
successfully before both hello and snapshot were received, and a received
hello implies the own session is recorded. -/
def HsInv (r : HsRoom) : Prop :=
  (r.connectedSuccessfully = true →
    r.helloReceived = true ∧ r.snapshotReceived = true) ∧
  (r.helloReceived = true → r.sessionNick.isSome = true)

/-- A Room that has received hello (session nick 2) and snapshot, with target
nick 1 configured, right before `_try_set_connected` runs. -/
def c6Room : HsRoom :=
  { targetNick := 1, password := none, sessionNick := some 2,
    helloReceived := true, snapshotReceived := true,
    connectedSet := false, connectedSuccessfully := false }

/-! ### Session listing model (room.py membership handlers)

room.py imports `LiveSession` and `LiveSessionListing` from `.session`; the
`session.py` in src/ is an older iteration that does not define them, so the
listing type and its operations are modelled from the spec, while the event
handlers that drive them are embedded from room.py itself. -/

/-- A participant session (spec §3 Session), reduced to the fields the listing
operations and handlers use; identifiers and the nick are `Nat`. -/
structure Sess where
  sessionId : Nat
  nick : Nat
  serverId : Nat
  serverEra : Nat
deriving DecidableEq, Repr

/-- Modelled from the spec: `LiveSessionListing` (absent from src/), spec §3:
"SessionListing: a mapping from session_id to Session ... exactly one entry
per currently-joined session_id", kept in server listing order. -/
abbrev Listing := List Sess

/-- Modelled from the spec: listing lookup by session id (used by room.py as
`self.users.get(session_id)`). -/
def Listing.getSess (l : Listing) (sid : Nat) : Option Sess :=
  match l with
  | [] => none
  | s :: rest => if s.sessionId = sid then some s else Listing.getSess rest sid

/-- Modelled from the spec: `with_join` — "join-event | insert session"
(spec §4.3); inserting under the mapping invariant replaces an entry with the
same session_id and appends otherwise. -/
def Listing.withJoin (l : Listing) (s : Sess) : Listing :=
  match l with
  | [] => [s]
  | x :: rest =>
    if x.sessionId = s.sessionId then s :: rest else x :: Listing.withJoin rest s

/-- Modelled from the spec: `with_part` — "part-event | remove by session_id"
(spec §4.3). -/
def Listing.withPart (l : Listing) (s : Sess) : Listing :=
  l.filter fun x => x.sessionId != s.sessionId

/-- Modelled from the spec: `with_nick` — "nick-event | update nick for
session_id" (spec §4.3). -/
def Listing.withNick (l : Listing) (s : Sess) (newNick : Nat) : Listing :=
  l.map fun x => if x.sessionId = s.sessionId then { x with nick := newNick } else x

/-- The condition of room.py 300: `user.server_id == server_id and
user.server_era == server_era`. -/
def Sess.matchesPart (u : Sess) (sid era : Nat) : Bool :=
  decide (u.serverId = sid) && decide (u.serverEra = era)

/-- Embeds `Room._on_join_event` (room.py 255-262), listing part. -/
def onJoinEventL (l : Listing) (s : Sess) : Listing := l.withJoin s

/-- Embeds `Room._on_part_event` (room.py 329-336), listing part. -/
def onPartEventL (l : Listing) (s : Sess) : Listing := l.withPart s

/-- Embeds `Room._on_network_event` (room.py 290-305), listing part: iterate
over the current listing and remove each session matching the partition's
(server_id, server_era) from an accumulator via `with_part`. -/
def onNetworkEventL (l : Listing) (sid era : Nat) : Listing :=
  List.foldl
    (fun users u => if u.matchesPart sid era then users.withPart u else users) l l

/-- Embeds `Room._on_nick_event` (room.py 307-320), listing part: update the
nick when the session is known; when it is unknown the handler instead calls
`who()` — a resync from fresh server input, which ends a scripted replay —
modelled as `none`. -/
def onNickEventL (l : Listing) (sid newNick : Nat) : Option Listing :=
  match l.getSess sid with
  | some s => some (l.withNick s newNick)
  | none => none

/-- The membership events of claim C7. -/
inductive ListEvent where
  | join (s : Sess)
  | part (s : Sess)
  | network (serverId serverEra : Nat)
  | nick (sessionId : Nat) (newNick : Nat)
deriving DecidableEq, Repr

/-- Dispatch of one membership event to its room.py handler. -/
def implStepL (l : Listing) : ListEvent → Option Listing
  | .join s => some (onJoinEventL l s)
  | .part s => some (onPartEventL l s)
  | .network sid era => some (onNetworkEventL l sid era)
  | .nick sid newNick => onNickEventL l sid newNick

/-- Replay a scripted event sequence through the room.py handlers; `none` when
a nick-event referenced an unknown session (who() resync required). -/
def implReplayL (l : Listing) : List ListEvent → Option Listing
  | [] => some l
  | e :: es =>
    match implStepL l e with
    | some l2 => implReplayL l2 es
    | none => none

/-- Reference semantics, following the claim's wording: the mapping from
session_id to session. -/
abbrev SessMap := List (Nat × Sess)

/-- Reference lookup in the session mapping. -/
def mapLookup (m : SessMap) (k : Nat) : Option Sess :=
  match m with
  | [] => none
  | (i, v) :: rest => if i = k then some v else mapLookup rest k

/-- Reference insert: "join inserts the session". -/
def mapInsert (m : SessMap) (k : Nat) (v : Sess) : SessMap :=
  match m with
  | [] => [(k, v)]
  | (i, w) :: rest =>
    if i = k then (k, v) :: rest else (i, w) :: mapInsert rest k v

/-- One step of the reference semantics, from the claim's wording: join
inserts the session, part removes it by session_id, a network partition
removes all sessions matching (server_id, server_era), a nick event updates
the stored nick of that session id. -/
def specStepL (m : SessMap) : ListEvent → SessMap
  | .join s => mapInsert m s.sessionId s
  | .part s => m.filter fun e => e.1 != s.sessionId
  | .network sid era => m.filter fun e => !(e.2.matchesPart sid era)
  | .nick sid newNick =>
    m.map fun e => if e.1 = sid then (e.1, { e.2 with nick := newNick }) else e

/-- Replay of the reference semantics. -/
def specReplayL (m : SessMap) : List ListEvent → SessMap
  | [] => m
  | e :: es => specReplayL (specStepL m e) es

/-- The session ids of a listing are pairwise distinct (the mapping invariant
of spec §3). -/
def NodupIds (l : Listing) : Prop := (l.map Sess.sessionId).Nodup

/-- Is some session with the same session id a member of the list? -/
def idMem (x : Sess) (l : List Sess) : Bool :=
  l.any fun u => u.sessionId == x.sessionId

/-- View a listing as the session mapping it represents. -/
def pairIdL (l : Listing) : SessMap :=
  l.map fun s => (s.sessionId, s)

/-- Example sessions for concrete runs. -/
def sessA : Sess := { sessionId := 1, nick := 10, serverId := 0, serverEra := 0 }

/-- Example session with the same session id as `sessA` but a different nick
(as returned in a later who-reply). -/
def sessA2 : Sess := { sessionId := 1, nick := 11, serverId := 0, serverEra := 0 }

/-- Second example session. -/
def sessB : Sess := { sessionId := 2, nick := 20, serverId := 0, serverEra := 0 }

/-! ### who() model (room.py 495-510) -/

/-- Embeds the tail of `Room.who` after the reply's listing was decoded to
`reply`: look the own session up in the new listing; when present, replace the
own session by the reply's entry and install the listing WITH the own session
removed (`users.with_part(self._session)`); when absent, install the listing
as is.  Returns (new own session, new users listing). -/
def whoUpdate (sess : Sess) (reply : Listing) : Sess × Listing :=
  match reply.getSess sess.sessionId with
  | some s => (s, reply.withPart s)
  | none => (sess, reply)

/-! ### Room command operations (room.py 419-562) -/

/-- The connected gate as `_ensure_connected` observes it: `self._connected`
(an asyncio.Event) and `self._connected_successfully`. -/
structure Gate where
  connectedSet : Bool
  connectedSuccessfully : Bool
deriving DecidableEq, Repr

/-- The wire packet types the Room command operations send. -/
inductive PType where
  | auth
  | nick
  | send
  | getMessage
  | log
  | who
  | pmInitiate
deriving DecidableEq, Repr

/-- Externally observable actions of a Room command operation: the call to
`_ensure_connected` and each `Connection.send` it issues. -/
inductive CmdAct where
  | ensure
  | connSend (ptype : PType)
deriving DecidableEq, Repr

/-- How a Room command operation ends. -/
inductive CmdOutcome where
  | blocks
  | raisesNotConnected
  | completed
deriving DecidableEq, Repr

/-- Embeds `Room._ensure_connected` (room.py 419-423) sequenced before a
command body: while the gate is unset the caller stays suspended in
`self._connected.wait()` and no packet leaves; with the gate settled
unsuccessfully a `RoomNotConnectedException` is raised; otherwise the body
runs. -/
def ensureThen (g : Gate) (body : List CmdAct × CmdOutcome) :
    List CmdAct × CmdOutcome :=
  if !g.connectedSet then ([CmdAct.ensure], CmdOutcome.blocks)
  else if !g.connectedSuccessfully then
    ([CmdAct.ensure], CmdOutcome.raisesNotConnected)
  else (CmdAct.ensure :: body.1, body.2)

/-- Embeds `Room.send` (room.py 425-438): `_ensure_connected`, then exactly
one `Connection.send("send", ...)` awaited. -/
def roomSendCmd (g : Gate) : List CmdAct × CmdOutcome :=
  ensureThen g ([CmdAct.connSend PType.send], CmdOutcome.completed)

/-- Embeds `Room.nick` (room.py 465-468) delegating to `Room._nick`
(440-463): `_ensure_connected`, then exactly one `Connection.send("nick", ...)`. -/
def roomNickCmd (g : Gate) : List CmdAct × CmdOutcome :=
  ensureThen g ([CmdAct.connSend PType.nick], CmdOutcome.completed)

/-- Embeds `Room.get` (room.py 470-476): `_ensure_connected`, then exactly one
`Connection.send("get-message", ...)`. -/
def roomGetCmd (g : Gate) : List CmdAct × CmdOutcome :=
  ensureThen g ([CmdAct.connSend PType.getMessage], CmdOutcome.completed)

/-- Embeds `Room.log` (room.py 478-493): `_ensure_connected`, then exactly one
`Connection.send("log", ...)`. -/
def roomLogCmd (g : Gate) : List CmdAct × CmdOutcome :=
  ensureThen g ([CmdAct.connSend PType.log], CmdOutcome.completed)

/-- Embeds `Room.who` (room.py 495-510), call structure only:
`_ensure_connected`, then exactly one `Connection.send("who", {})`. -/
def roomWhoCmd (g : Gate) : List CmdAct × CmdOutcome :=
  ensureThen g ([CmdAct.connSend PType.who], CmdOutcome.completed)

/-- Embeds `Room.pm` (room.py 550-562): exactly one
`Connection.send("pm-initiate", ...)` — and no `_ensure_connected` call
anywhere in its body. -/
def roomPmCmd (_g : Gate) : List CmdAct × CmdOutcome :=
  ([CmdAct.connSend PType.pmInitiate], CmdOutcome.completed)

/-- Number of `Connection.send` calls in an action trace. -/
def sendCount (l : List CmdAct) : Nat :=
  l.countP fun a =>
    match a with
    | CmdAct.connSend _ => true
    | _ => false

/-! ### Optional-backed Room properties (room.py 77-84, 356-404) -/

/-- Room-level exceptions the property accessors can raise. -/
inductive RoomError where
  | roomNotConnected
  | euphError
deriving DecidableEq, Repr

/-- Embeds `Room._wrap_optional` (room.py 356-360): raise
`RoomNotConnectedException` when the backing field is still `None`, return
the value otherwise. -/
def wrapOptional {α : Type} : Option α → Except RoomError α
  | none => Except.error RoomError.roomNotConnected
  | some v => Except.ok v

/-- The seven Optional-backed Room fields (room.py 77-84), with their payload
types reduced as usual (strings as `Nat`). -/
structure RoomFields where
  sessionF : Option Sess
  accountF : Option Nat
  privateF : Option Bool
  versionF : Option Nat
  usersF : Option Listing
  pmWithNickF : Option Nat
  pmWithUserIdF : Option Nat
deriving DecidableEq, Repr

/-- The fields as set in `Room.__init__` (room.py 77-84): all `None`. -/
def RoomFields.mkInitF : RoomFields :=
  { sessionF := none, accountF := none, privateF := none, versionF := none,
    usersF := none, pmWithNickF := none, pmWithUserIdF := none }

/-- Embeds the `Room.session` property (room.py 378-380). -/
def RoomFields.sessionProp (r : RoomFields) : Except RoomError Sess :=
  wrapOptional r.sessionF

/-- Embeds the `Room.account` property (room.py 382-384). -/
def RoomFields.accountProp (r : RoomFields) : Except RoomError Nat :=
  wrapOptional r.accountF

/-- Embeds the `Room.private` property (room.py 386-388). -/
def RoomFields.privateProp (r : RoomFields) : Except RoomError Bool :=
  wrapOptional r.privateF

/-- Embeds the `Room.version` property (room.py 390-392). -/
def RoomFields.versionProp (r : RoomFields) : Except RoomError Nat :=
  wrapOptional r.versionF

/-- Embeds the `Room.users` property (room.py 394-396). -/
def RoomFields.usersProp (r : RoomFields) : Except RoomError Listing :=
  wrapOptional r.usersF

/-- Embeds the `Room.pm_with_nick` property (room.py 398-400). -/
def RoomFields.pmWithNickProp (r : RoomFields) : Except RoomError Nat :=
  wrapOptional r.pmWithNickF

/-- Embeds the `Room.pm_with_user_id` property (room.py 402-404). -/
def RoomFields.pmWithUserIdProp (r : RoomFields) : Except RoomError Nat :=
  wrapOptional r.pmWithUserIdF

/-! ## Theorems about the claims -/

/-- C1: the claim states that for every packet id issued by
`send(await_reply=True)`, after the matching reply resolves the future, a
subsequent disconnect does not attempt to resolve it again.  The code violates
this: `_process_packet` resolves the future but never removes its entry from
`_awaiting_replies` (and neither does `send`), so `_disconnect` later calls
`set_exception` on the already-resolved future, which raises
`asyncio.InvalidStateError`.  This theorem replays the scripted run
send(await_reply=True) giving id 0; the reply with id 0 arrives; disconnect:
the future is resolved exactly once by the reply, its entry is still in the
table, and the teardown's cleanup raises `InvalidStateError` while attempting
the second resolution. -/
theorem C1_reply_then_disconnect_attempts_second_resolution :
    Connection.sendRegister Connection.afterConnect true = Except.ok (connAfterSend, 0) ∧
    Connection.processPacket connAfterSend { pid := some 0 } = Except.ok connAfterReply ∧
    tableLookup [(0, FutState.resolvedOk)] 0 = some FutState.resolvedOk ∧
    (Connection.disconnectCleanup connAfterReply).2 = some PyError.invalidStateError := by
  decide

/-- C2: the claim states that when `disconnect()` completes, every reply future
pending at teardown has been resolved with a connection-closed failure and the
pending-reply table is cleared.  The code violates this: with a resolved future
left in the table (any completed awaited send, see C1), the cleanup loop of
`_disconnect` raises `InvalidStateError` at that entry, so the loop aborts,
later pending futures are left pending forever, the table is not cleared and
the state machine never reaches NOT_RUNNING.  Scripted run: two awaited sends
(ids 0 and 1), the reply for id 0 arrives, then disconnect. -/
theorem C2_disconnect_leaves_pending_future_and_table :
    Connection.sendRegister Connection.afterConnect true = Except.ok (connAfterSend, 0) ∧
    Connection.sendRegister connAfterSend true = Except.ok (connTwoSends, 1) ∧
    Connection.processPacket connTwoSends { pid := some 0 } = Except.ok connTwoSendsReplied ∧
    Connection.disconnectCleanup connTwoSendsReplied =
      ({ connTwoSendsReplied with closeCount := 1 }, some PyError.invalidStateError) ∧
    tableLookup [(0, FutState.resolvedOk), (1, FutState.pending)] 1 = some FutState.pending ∧
    ((Connection.disconnectCleanup connTwoSendsReplied).1.awaitingReplies.isNone = false) := by
  decide

/-- C9: the claim states that `_ws`, the pending-reply table and the
ping-watchdog task are always all absent or all present (the comment at
connection.py 117-118 states the same).  The code violates this:
`_process_packet` re-installs `_ping_check` unconditionally (the cancel of the
old task is guarded by `is not None`, the assignment is not).  Reachable
schedule: a frame has been delivered to the receive loop's `async for`; before
the loop task resumes, the ping-timeout watchdog's `_disconnect` task runs to
completion (all three fields cleared, which satisfies the invariant); the loop
task then resumes and calls `_process_packet` on the delivered frame, leaving
`_ping_check` set while `_ws` and `_awaiting_replies` are `None`. -/
theorem C9_process_packet_after_cleanup_breaks_unit :
    (Connection.disconnectCleanup Connection.afterConnect).2 = none ∧
    Connection.unitTogether (Connection.disconnectCleanup Connection.afterConnect).1 = true ∧
    Connection.processPacket (Connection.disconnectCleanup Connection.afterConnect).1
        { pid := none } = Except.ok connBrokenUnit ∧
    connBrokenUnit.pingCheck = true ∧
    connBrokenUnit.ws = false ∧
    connBrokenUnit.awaitingReplies = none ∧
    Connection.unitTogether connBrokenUnit = false := by
  decide

/-! ### Invariant proof for the double-disconnect system -/

theorem failAll_snd_of_allPending :
    ∀ tbl : ReplyTable, allPending tbl = true → (failAll tbl).2 = false := by
  intro tbl
  induction tbl with
  | nil => intro _; rfl
  | cons e rest ih =>
    intro hp
    obtain ⟨i, f⟩ := e
    simp only [allPending, List.all_cons, Bool.and_eq_true, decide_eq_true_eq] at hp
    cases f with
    | pending => exact ih hp.2
    | resolvedOk => exact absurd hp.1 (by decide)
    | resolvedErr => exact absurd hp.1 (by decide)

theorem not_inTd_start : ¬ inTd DPC.start := by decide

theorem not_inTd_waitDisc : ¬ inTd DPC.waitDisc := by decide

theorem not_inTd_done : ¬ inTd DPC.done := by decide

theorem C8Inv_t1 {s t : Sys} (h : C8Inv s) (hstep : sysStep s Tid.t1 = some t) :
    C8Inv t := by
  simp only [sysStep] at hstep
  cases hpc : s.pc1 with
  | start =>
    rw [hpc] at hstep
    cases hst : s.conn.state with
    | connecting => exact absurd hst h.notConnSt.1
    | reconnecting => exact absurd hst h.notConnSt.2
    | notRunning =>
      rw [show disconnectTaskStep s.conn DPC.start s.loopDone = some (s.conn, DPC.done) by
        simp [disconnectTaskStep, hst]] at hstep
      have h2 : some { s with conn := s.conn, pc1 := DPC.done } = some t := hstep
      obtain rfl := Option.some.inj h2
      exact { tableOk := h.tableOk,
              noRaise1 := fun hx => DPC.noConfusion hx, noRaise2 := h.noRaise2,
              noWaitConn1 := fun hx => DPC.noConfusion hx, noWaitConn2 := h.noWaitConn2,
              closeLe := h.closeLe,
              notBoth := fun hx => absurd hx.1 not_inTd_done,
              tdState1 := fun hx => absurd hx not_inTd_done,
              tdState2 := h.tdState2,
              runningClean := fun hr => absurd (hst.symm.trans hr) (by decide),
              close1 := fun hx => DPC.noConfusion hx, close2 := h.close2,
              cleanup1 := fun hx => DPC.noConfusion hx, cleanup2 := h.cleanup2,
              notConnSt := h.notConnSt }
    | disconnecting =>
      rw [show disconnectTaskStep s.conn DPC.start s.loopDone = some (s.conn, DPC.waitDisc) by
        simp [disconnectTaskStep, hst]] at hstep
      have h2 : some { s with conn := s.conn, pc1 := DPC.waitDisc } = some t := hstep
      obtain rfl := Option.some.inj h2
      exact { tableOk := h.tableOk,
              noRaise1 := fun hx => DPC.noConfusion hx, noRaise2 := h.noRaise2,
              noWaitConn1 := fun hx => DPC.noConfusion hx, noWaitConn2 := h.noWaitConn2,
              closeLe := h.closeLe,
              notBoth := fun hx => absurd hx.1 not_inTd_waitDisc,
              tdState1 := fun hx => absurd hx not_inTd_waitDisc,
              tdState2 := h.tdState2,
              runningClean := fun hr => absurd (hst.symm.trans hr) (by decide),
              close1 := fun hx => DPC.noConfusion hx, close2 := h.close2,
              cleanup1 := fun hx => DPC.noConfusion hx, cleanup2 := h.cleanup2,
              notConnSt := h.notConnSt }
    | running =>
      rw [show disconnectTaskStep s.conn DPC.start s.loopDone
          = some ({ s.conn with state := ConnState.disconnecting }, DPC.tdClose) by
        simp [disconnectTaskStep, hst]] at hstep
      have h2 : some { s with conn := { s.conn with state := ConnState.disconnecting }, pc1 := DPC.tdClose } = some t := hstep
      obtain rfl := Option.some.inj h2
      have hnp2 : ¬ inTd s.pc2 := fun hx =>
        absurd (hst.symm.trans (h.tdState2 hx)) (by decide)
      have hrc := h.runningClean hst
      exact { tableOk := h.tableOk,
              noRaise1 := fun hx => DPC.noConfusion hx, noRaise2 := h.noRaise2,
              noWaitConn1 := fun hx => DPC.noConfusion hx, noWaitConn2 := h.noWaitConn2,
              closeLe := h.closeLe,
              notBoth := fun hx => hnp2 hx.2,
              tdState1 := fun _ => rfl,
              tdState2 := fun _ => rfl,
              runningClean := fun hr => ConnState.noConfusion hr,
              close1 := fun _ => ⟨hrc.1, hrc.2.2⟩,
              close2 := fun hx => absurd (Or.inl hx) hnp2,
              cleanup1 := fun hx => DPC.noConfusion hx,
              cleanup2 := fun hx => absurd (Or.inr (Or.inl hx)) hnp2,
              notConnSt := ⟨fun hx => ConnState.noConfusion hx, fun hx => ConnState.noConfusion hx⟩ }
  | waitConn => exact absurd hpc h.noWaitConn1
  | waitDisc =>
    rw [hpc] at hstep
    by_cases hst : s.conn.state = ConnState.notRunning
    · rw [show disconnectTaskStep s.conn DPC.waitDisc s.loopDone = some (s.conn, DPC.done) by
        simp [disconnectTaskStep, hst]] at hstep
      have h2 : some { s with conn := s.conn, pc1 := DPC.done } = some t := hstep
      obtain rfl := Option.some.inj h2
      exact { tableOk := h.tableOk,
              noRaise1 := fun hx => DPC.noConfusion hx, noRaise2 := h.noRaise2,
              noWaitConn1 := fun hx => DPC.noConfusion hx, noWaitConn2 := h.noWaitConn2,
              closeLe := h.closeLe,
              notBoth := fun hx => absurd hx.1 not_inTd_done,
              tdState1 := fun hx => absurd hx not_inTd_done,
              tdState2 := h.tdState2,
              runningClean := fun hr => absurd (hst.symm.trans hr) (by decide),
              close1 := fun hx => DPC.noConfusion hx, close2 := h.close2,
              cleanup1 := fun hx => DPC.noConfusion hx, cleanup2 := h.cleanup2,
              notConnSt := h.notConnSt }
    · rw [show disconnectTaskStep s.conn DPC.waitDisc s.loopDone = none by
        simp [disconnectTaskStep, hst]] at hstep
      exact absurd hstep (by simp)
  | tdClose =>
    rw [hpc] at hstep
    have hc1 := h.close1 hpc
    have h1 : inTd s.pc1 := by rw [hpc]; exact Or.inl rfl
    have hnp2 : ¬ inTd s.pc2 := fun hx => h.notBoth ⟨h1, hx⟩
    have hstd := h.tdState1 h1
    cases hw : s.conn.ws with
    | true =>
      rw [show disconnectTaskStep s.conn DPC.tdClose s.loopDone
          = some ({ s.conn with closeCount := s.conn.closeCount + 1 }, DPC.tdCleanup) by
        simp [disconnectTaskStep, hw]] at hstep
      have h2 : some { s with conn := { s.conn with closeCount := s.conn.closeCount + 1 }, pc1 := DPC.tdCleanup } = some t := hstep
      obtain rfl := Option.some.inj h2
      exact { tableOk := h.tableOk,
              noRaise1 := fun hx => DPC.noConfusion hx, noRaise2 := h.noRaise2,
              noWaitConn1 := fun hx => DPC.noConfusion hx, noWaitConn2 := h.noWaitConn2,
              closeLe := by
                have hz := hc1.1
                show s.conn.closeCount + 1 ≤ 1
                omega,
              notBoth := fun hx => hnp2 hx.2,
              tdState1 := fun _ => hstd,
              tdState2 := h.tdState2,
              runningClean := fun hr => absurd (hstd.symm.trans hr) (by decide),
              close1 := fun hx => DPC.noConfusion hx,
              close2 := fun hx => absurd (Or.inl hx) hnp2,
              cleanup1 := fun _ => ⟨hw, hc1.2⟩,
              cleanup2 := fun hx => absurd (Or.inr (Or.inl hx)) hnp2,
              notConnSt := h.notConnSt }
    | false =>
      rw [show disconnectTaskStep s.conn DPC.tdClose s.loopDone
          = some (s.conn, DPC.waitLoop) by
        simp [disconnectTaskStep, hw]] at hstep
      have h2 : some { s with conn := s.conn, pc1 := DPC.waitLoop } = some t := hstep
      obtain rfl := Option.some.inj h2
      exact { tableOk := h.tableOk,
              noRaise1 := fun hx => DPC.noConfusion hx, noRaise2 := h.noRaise2,
              noWaitConn1 := fun hx => DPC.noConfusion hx, noWaitConn2 := h.noWaitConn2,
              closeLe := h.closeLe,
              notBoth := fun hx => hnp2 hx.2,
              tdState1 := fun _ => hstd, tdState2 := h.tdState2,
              runningClean := fun hr => absurd (hstd.symm.trans hr) (by decide),
              close1 := fun hx => DPC.noConfusion hx, close2 := h.close2,
              cleanup1 := fun hx => DPC.noConfusion hx, cleanup2 := h.cleanup2,
              notConnSt := h.notConnSt }
  | tdCleanup =>
    rw [hpc] at hstep
    have hcl := h.cleanup1 hpc
    have h1 : inTd s.pc1 := by rw [hpc]; exact Or.inr (Or.inl rfl)
    have hnp2 : ¬ inTd s.pc2 := fun hx => h.notBoth ⟨h1, hx⟩
    have hstd := h.tdState1 h1
    obtain htbl | ⟨tbl, htbl, hap⟩ := h.tableOk
    · exact absurd htbl hcl.2
    · rw [show disconnectTaskStep s.conn DPC.tdCleanup s.loopDone
          = some ({ s.conn with ws := false, awaitingReplies := none, pingCheck := false },
                  DPC.waitLoop) by
        simp [disconnectTaskStep, hcl.1, htbl, failAll_snd_of_allPending tbl hap]] at hstep
      have h2 : some { s with conn := { s.conn with ws := false, awaitingReplies := none, pingCheck := false }, pc1 := DPC.waitLoop } = some t := hstep
      obtain rfl := Option.some.inj h2
      exact { tableOk := Or.inl rfl,
              noRaise1 := fun hx => DPC.noConfusion hx, noRaise2 := h.noRaise2,
              noWaitConn1 := fun hx => DPC.noConfusion hx, noWaitConn2 := h.noWaitConn2,
              closeLe := h.closeLe,
              notBoth := fun hx => hnp2 hx.2,
              tdState1 := fun _ => hstd, tdState2 := h.tdState2,
              runningClean := fun hr => absurd (hstd.symm.trans hr) (by decide),
              close1 := fun hx => DPC.noConfusion hx,
              close2 := fun hx => absurd (Or.inl hx) hnp2,
              cleanup1 := fun hx => DPC.noConfusion hx,
              cleanup2 := fun hx => absurd (Or.inr (Or.inl hx)) hnp2,
              notConnSt := h.notConnSt }
  | waitLoop =>
    rw [hpc] at hstep
    have h1 : inTd s.pc1 := by rw [hpc]; exact Or.inr (Or.inr rfl)
    have hnp2 : ¬ inTd s.pc2 := fun hx => h.notBoth ⟨h1, hx⟩
    cases hld : s.loopDone with
    | false =>
      rw [show disconnectTaskStep s.conn DPC.waitLoop s.loopDone = none by
        simp [disconnectTaskStep, hld]] at hstep
      exact absurd hstep (by simp)
    | true =>
      rw [show disconnectTaskStep s.conn DPC.waitLoop s.loopDone
          = some ({ s.conn with state := ConnState.notRunning }, DPC.done) by
        simp [disconnectTaskStep, hld]] at hstep
      have h2 : some { s with conn := { s.conn with state := ConnState.notRunning }, pc1 := DPC.done } = some t := hstep
      obtain rfl := Option.some.inj h2
      exact { tableOk := h.tableOk,
              noRaise1 := fun hx => DPC.noConfusion hx, noRaise2 := h.noRaise2,
              noWaitConn1 := fun hx => DPC.noConfusion hx, noWaitConn2 := h.noWaitConn2,
              closeLe := h.closeLe,
              notBoth := fun hx => absurd hx.1 not_inTd_done,
              tdState1 := fun hx => absurd hx not_inTd_done,
              tdState2 := fun hx => absurd hx hnp2,
              runningClean := fun hr => ConnState.noConfusion hr,
              close1 := fun hx => DPC.noConfusion hx,
              close2 := h.close2,
              cleanup1 := fun hx => DPC.noConfusion hx,
              cleanup2 := h.cleanup2,
              notConnSt := ⟨fun hx => ConnState.noConfusion hx, fun hx => ConnState.noConfusion hx⟩ }
  | done =>
    rw [hpc] at hstep
    exact absurd hstep (by simp [disconnectTaskStep])
  | raised => exact absurd hpc h.noRaise1

theorem C8Inv_swap {s : Sys} (h : C8Inv s) : C8Inv s.swap :=
  { tableOk := h.tableOk, noRaise1 := h.noRaise2, noRaise2 := h.noRaise1,
    noWaitConn1 := h.noWaitConn2, noWaitConn2 := h.noWaitConn1,
    closeLe := h.closeLe,
    notBoth := fun hx => h.notBoth ⟨hx.2, hx.1⟩,
    tdState1 := h.tdState2, tdState2 := h.tdState1,
    runningClean := h.runningClean,
    close1 := h.close2, close2 := h.close1,
    cleanup1 := h.cleanup2, cleanup2 := h.cleanup1,
    notConnSt := h.notConnSt }

theorem Sys.swap_swap (s : Sys) : s.swap.swap = s := rfl

theorem sysStep_t2_swap {s t : Sys} (h : sysStep s Tid.t2 = some t) :
    sysStep s.swap Tid.t1 = some t.swap := by
  simp only [sysStep] at h ⊢
  cases hd : disconnectTaskStep s.conn s.pc2 s.loopDone with
  | none => rw [hd] at h; exact absurd h (by simp)
  | some r =>
    rw [hd] at h
    have h2 : some { s with conn := r.1, pc2 := r.2 } = some t := h
    obtain rfl := Option.some.inj h2
    show Option.map _ (disconnectTaskStep s.conn s.pc2 s.loopDone) = _
    rw [hd]
    rfl

theorem C8Inv_step {s t : Sys} (h : C8Inv s) (hs : SysStep s t) : C8Inv t := by
  obtain ⟨tid, hstep⟩ := hs
  cases tid with
  | t1 => exact C8Inv_t1 h hstep
  | t2 =>
    have h3 := C8Inv_swap (C8Inv_t1 (C8Inv_swap h) (sysStep_t2_swap hstep))
    rw [Sys.swap_swap] at h3
    exact h3
  | evLoop =>
    simp only [sysStep] at hstep
    by_cases hc : s.loopDone = false ∧ s.conn.state ≠ ConnState.running
    · rw [if_pos hc] at hstep
      obtain rfl := Option.some.inj hstep
      exact { tableOk := h.tableOk, noRaise1 := h.noRaise1, noRaise2 := h.noRaise2,
              noWaitConn1 := h.noWaitConn1, noWaitConn2 := h.noWaitConn2,
              closeLe := h.closeLe, notBoth := h.notBoth,
              tdState1 := h.tdState1, tdState2 := h.tdState2,
              runningClean := h.runningClean,
              close1 := h.close1, close2 := h.close2,
              cleanup1 := h.cleanup1, cleanup2 := h.cleanup2,
              notConnSt := h.notConnSt }
    · rw [if_neg hc] at hstep
      exact absurd hstep (by simp)

theorem C8Inv_reach {tbl : ReplyTable} {s : Sys} (hp : allPending tbl = true)
    (h : SysReach (initSys tbl) s) : C8Inv s := by
  induction h with
  | refl =>
    exact { tableOk := Or.inr ⟨tbl, rfl, hp⟩,
            noRaise1 := fun hx => DPC.noConfusion hx,
            noRaise2 := fun hx => DPC.noConfusion hx,
            noWaitConn1 := fun hx => DPC.noConfusion hx,
            noWaitConn2 := fun hx => DPC.noConfusion hx,
            closeLe := Nat.zero_le 1,
            notBoth := fun hx => absurd hx.1 not_inTd_start,
            tdState1 := fun hx => absurd hx not_inTd_start,
            tdState2 := fun hx => absurd hx not_inTd_start,
            runningClean := fun _ => ⟨rfl, rfl, fun hc => Option.noConfusion hc⟩,
            close1 := fun hx => DPC.noConfusion hx,
            close2 := fun hx => DPC.noConfusion hx,
            cleanup1 := fun hx => DPC.noConfusion hx,
            cleanup2 := fun hx => DPC.noConfusion hx,
            notConnSt := ⟨fun hx => ConnState.noConfusion hx, fun hx => ConnState.noConfusion hx⟩ }
  | tail hab hbc ih => exact C8Inv_step ih hbc

/-- C8 counterexample: the claim states that calling `disconnect()` twice in a
row never raises.  It fails already because the FIRST call can raise: after any
completed awaited send, the reply table still holds the resolved future (C1),
and the cleanup loop's `set_exception` on it raises `InvalidStateError`.  The
trace below is a reachable schedule of the double-disconnect system started
with such a table: the first task reaches `raised` (its `disconnect()` call
terminates with an exception), the state is stuck at DISCONNECTING. -/
theorem C8_counterexample_first_disconnect_raises :
    SysReach (initSys [(0, FutState.resolvedOk)]) c8FailSys ∧
    c8FailSys.pc1 = DPC.raised := by
  constructor
  · have h1 : SysStep (initSys [(0, FutState.resolvedOk)]) c8Mid1 := ⟨Tid.t1, by decide⟩
    have h2 : SysStep c8Mid1 c8Mid2 := ⟨Tid.t1, by decide⟩
    have h3 : SysStep c8Mid2 c8FailSys := ⟨Tid.t1, by decide⟩
    exact Relation.ReflTransGen.tail
      (Relation.ReflTransGen.tail (Relation.ReflTransGen.single h1) h2) h3
  · rfl

/-- C8 (amended): provided every reply future in the table is still pending
when the two `disconnect()` calls are issued (the situation the claim's
scenario describes; a previously completed awaited send violates it, see the
counterexample and C1/C2), then under every interleaving of the two calls and
the event loop: neither call raises, the transport close is invoked at most
once in total, and a `disconnect()` call that observes NOT_RUNNING returns
immediately without touching anything (a no-op). -/
theorem C8_amended_double_disconnect_safe (tbl : ReplyTable) (hp : allPending tbl = true)
    (s : Sys) (h : SysReach (initSys tbl) s) :
    s.pc1 ≠ DPC.raised ∧ s.pc2 ≠ DPC.raised ∧ s.conn.closeCount ≤ 1 ∧
    (∀ c : Connection, ∀ pother : DPC, ∀ ld : Bool, c.state = ConnState.notRunning →
      sysStep { conn := c, pc1 := DPC.start, pc2 := pother, loopDone := ld } Tid.t1 =
        some { conn := c, pc1 := DPC.done, pc2 := pother, loopDone := ld }) := by
  have hinv := C8Inv_reach hp h
  refine ⟨hinv.noRaise1, hinv.noRaise2, hinv.closeLe, ?_⟩
  intro c pother ld hc
  simp [sysStep, disconnectTaskStep, hc]

/-- C8 witness: the amended theorem applied to the concrete initial system with
an empty reply table, and the no-op conjunct applied to a concrete NOT_RUNNING
connection. -/
theorem C8_amended_witness :
    (initSys []).pc1 ≠ DPC.raised ∧ (initSys []).conn.closeCount ≤ 1 ∧
    sysStep { conn := connNotRunning, pc1 := DPC.start, pc2 := DPC.start, loopDone := false }
        Tid.t1 =
      some { conn := connNotRunning, pc1 := DPC.done, pc2 := DPC.start, loopDone := false } := by
  have h := C8_amended_double_disconnect_safe [] rfl (initSys []) Relation.ReflTransGen.refl
  exact ⟨h.1, h.2.2.1, h.2.2.2 connNotRunning DPC.start false rfl⟩

/-! ### Handshake invariant lemmas -/

theorem hsInv_trySetConnected {r : HsRoom} (h : HsInv r) (nr : Option Nat) :
    HsInv (r.trySetConnected nr).1 := by
  unfold HsRoom.trySetConnected
  split
  case isTrue hcond =>
    simp only [Bool.and_eq_true, Bool.not_eq_true'] at hcond
    split
    case isTrue hnick =>
      cases nr with
      | none => exact h
      | some newNick =>
        refine ⟨fun _ => ⟨hcond.1.1, hcond.1.2⟩, fun _ => ?_⟩
        show (r.sessionNick.map fun _ => newNick).isSome = true
        have h2s := h.2 hcond.1.1
        cases hrs : r.sessionNick with
        | none => rw [hrs] at h2s; exact Bool.noConfusion h2s
        | some m => rfl
    case isFalse hnick =>
      exact ⟨fun _ => ⟨hcond.1.1, hcond.1.2⟩, h.2⟩
  case isFalse hcond => exact h

theorem hsInv_setConnectedFailed {r : HsRoom} (h : HsInv r) :
    HsInv r.setConnectedFailed := by
  unfold HsRoom.setConnectedFailed
  split
  · exact ⟨fun hs => Bool.noConfusion hs, h.2⟩
  · exact h

theorem hsInv_step {r : HsRoom} (h : HsInv r) (e : HsEvent) : HsInv (r.step e).1 := by
  obtain ⟨h1, h2⟩ := h
  cases e with
  | hello n nr =>
    have hr1 : HsInv { r with sessionNick := some n, helloReceived := true } :=
      ⟨fun hs => ⟨rfl, (h1 hs).2⟩, fun _ => rfl⟩
    exact hsInv_trySetConnected hr1 nr
  | snapshot sn nr =>
    show HsInv (HsRoom.onSnapshotEvent r sn nr).1
    unfold HsRoom.onSnapshotEvent
    cases sn with
    | none =>
      have hr1 : HsInv { r with snapshotReceived := true } :=
        ⟨fun hs => ⟨(h1 hs).1, rfl⟩, h2⟩
      exact hsInv_trySetConnected hr1 nr
    | some n =>
      cases hrs : r.sessionNick with
      | none =>
        have hr1 : HsInv { r with sessionNick := none, snapshotReceived := true } := by
          refine ⟨fun hs => ⟨(h1 hs).1, rfl⟩, fun hh => ?_⟩
          have h2s := h2 hh
          rw [hrs] at h2s
          exact h2s
        exact hsInv_trySetConnected hr1 nr
      | some m =>
        have hr1 : HsInv { r with sessionNick := some n, snapshotReceived := true } :=
          ⟨fun hs => ⟨(h1 hs).1, rfl⟩, fun _ => rfl⟩
        exact hsInv_trySetConnected hr1 nr
  | bounce ao ok =>
    show HsInv (HsRoom.onBounceEvent r ao ok).1
    unfold HsRoom.onBounceEvent
    split
    · exact hsInv_setConnectedFailed ⟨h1, h2⟩
    · cases hpw : r.password with
      | none => exact hsInv_setConnectedFailed ⟨h1, h2⟩
      | some p =>
        cases ok with
        | true => exact ⟨h1, h2⟩
        | false => exact hsInv_setConnectedFailed ⟨h1, h2⟩
  | reconnecting =>
    exact ⟨fun hs => Bool.noConfusion hs, fun hh => Bool.noConfusion hh⟩

theorem hsInv_replay {r : HsRoom} (h : HsInv r) (es : List HsEvent) :
    HsInv (r.replay es) := by
  induction es generalizing r with
  | nil => exact h
  | cons e es ih => exact ih (hsInv_step h e)

theorem hsInv_mkInit (tn : Nat) (pw : Option Nat) : HsInv (HsRoom.mkInit tn pw) :=
  ⟨fun hs => Bool.noConfusion hs, fun hh => Bool.noConfusion hh⟩

/-- C5 counterexample: the claim states that the "no auth option" and
"no password" failures carry distinguishable reasons.  In room.py 191-213 all
bounce failures are signalled identically through `_set_connected_failed()`
(gate set, unsuccessfully) with no reason recorded anywhere, and `connect()`
(room.py 215-231) returns a bare bool; the reason strings exist only in an
older iteration (controller.py).  Concretely: a room WITH a password bounced
without passcode in `auth_options`, and a room WITHOUT a password bounced with
passcode offered, produce identical observable outcomes — same gate state and
no packet sent — so the two failure causes cannot be told apart. -/
theorem C5_counterexample_failures_indistinguishable :
    ((HsRoom.mkInit 5 (some 7)).onBounceEvent (some [1]) true).2 = [] ∧
    ((HsRoom.mkInit 5 none).onBounceEvent (some [passcodeOpt]) true).2 = [] ∧
    ((HsRoom.mkInit 5 (some 7)).onBounceEvent (some [1]) true).1.connectedSet = true ∧
    ((HsRoom.mkInit 5 (some 7)).onBounceEvent (some [1]) true).1.connectedSuccessfully
      = false ∧
    ((HsRoom.mkInit 5 none).onBounceEvent (some [passcodeOpt]) true).1.connectedSet
      = true ∧
    ((HsRoom.mkInit 5 none).onBounceEvent (some [passcodeOpt])
      true).1.connectedSuccessfully = false := by
  decide

/-- C5 (amended): on a bounce-event, if passcode authentication is not offered
in `auth_options` (an absent key counts as offering it), or no local password
was configured, the connect attempt fails immediately (the connected gate is
settled unsuccessfully) and no auth command is sent; otherwise an auth command
with the configured password is sent, and the gate is settled unsuccessfully
exactly when the server reports failure.  No distinguishable failure reason is
recorded in any of the three cases. -/
theorem C5_amended_bounce_behaviour (r : HsRoom) (ao : Option (List Nat)) (ok : Bool) :
    (passcodeOffered ao = false → r.onBounceEvent ao ok = (r.setConnectedFailed, [])) ∧
    (passcodeOffered ao = true → r.password = none →
      r.onBounceEvent ao ok = (r.setConnectedFailed, [])) ∧
    (∀ pw, passcodeOffered ao = true → r.password = some pw →
      (r.onBounceEvent ao ok).2 = [HsAction.sendAuth pw] ∧
      (ok = false → (r.onBounceEvent ao ok).1 = r.setConnectedFailed) ∧
      (ok = true → (r.onBounceEvent ao ok).1 = r)) := by
  refine ⟨?_, ?_, ?_⟩
  · intro hpo
    have hm : ¬ passcodeOpt ∈ ao.getD [passcodeOpt] := by
      have hc : (ao.getD [passcodeOpt]).contains passcodeOpt = false := hpo
      simpa using hc
    simp [HsRoom.onBounceEvent, hm]
  · intro hpo hpw
    have hm : passcodeOpt ∈ ao.getD [passcodeOpt] := by
      have hc : (ao.getD [passcodeOpt]).contains passcodeOpt = true := hpo
      simpa using hc
    simp [HsRoom.onBounceEvent, hm, hpw]
  · intro pw hpo hpw
    have hm : passcodeOpt ∈ ao.getD [passcodeOpt] := by
      have hc : (ao.getD [passcodeOpt]).contains passcodeOpt = true := hpo
      simpa using hc
    cases ok with
    | true => simp [HsRoom.onBounceEvent, hm, hpw]
    | false => simp [HsRoom.onBounceEvent, hm, hpw]

/-- C5 witness: the amended theorem applied to a room with password 7 receiving
a bounce that offers passcode authentication, with a failing auth reply. -/
theorem C5_amended_witness :
    ((HsRoom.mkInit 5 (some 7)).onBounceEvent (some [passcodeOpt]) false).2
      = [HsAction.sendAuth 7] ∧
    ((HsRoom.mkInit 5 (some 7)).onBounceEvent (some [passcodeOpt]) false).1
      = (HsRoom.mkInit 5 (some 7)).setConnectedFailed := by
  have h := (C5_amended_bounce_behaviour (HsRoom.mkInit 5 (some 7))
    (some [passcodeOpt]) false).2.2 7 rfl rfl
  exact ⟨h.1, h.2.1 rfl⟩

/-- C6: the Room is never declared connected (the gate settled successfully)
before both hello-event and snapshot-event have been received, for every
sequence of bounce/hello/snapshot/reconnecting events replayed from a freshly
constructed Room; `_try_set_connected` does nothing while either flag is
missing; and once both flags hold with the gate still unset, a `nick` command
is issued before the gate is set exactly when the configured target nick is
non-empty (non-`0`) and differs from the server-assigned session nick,
otherwise the gate is set immediately with no nick command.  (Whenever hello
has been received the session is recorded, so the server-assigned nick exists;
the second and third conjuncts are stated for an arbitrary Room state.) -/
theorem C6_connected_only_after_hello_and_snapshot (tn : Nat) (pw : Option Nat)
    (es : List HsEvent) (r : HsRoom) (nr sn : Nat) :
    (((HsRoom.mkInit tn pw).replay es).connectedSuccessfully = true →
        ((HsRoom.mkInit tn pw).replay es).helloReceived = true ∧
        ((HsRoom.mkInit tn pw).replay es).snapshotReceived = true) ∧
    (((HsRoom.mkInit tn pw).replay es).helloReceived = true →
        ((HsRoom.mkInit tn pw).replay es).sessionNick.isSome = true) ∧
    (¬(r.helloReceived = true ∧ r.snapshotReceived = true) →
        r.trySetConnected (some nr) = (r, [])) ∧
    (r.helloReceived = true → r.snapshotReceived = true → r.connectedSet = false →
      r.sessionNick = some sn →
      ((r.targetNick ≠ 0 ∧ r.targetNick ≠ sn →
          (r.trySetConnected (some nr)).2 =
            [HsAction.sendNick r.targetNick, HsAction.setConnected] ∧
          (r.trySetConnected (some nr)).1.connectedSuccessfully = true) ∧
       (r.targetNick = 0 ∨ r.targetNick = sn →
          (r.trySetConnected (some nr)).2 = [HsAction.setConnected] ∧
          (r.trySetConnected (some nr)).1.connectedSuccessfully = true))) := by
  have hinv := hsInv_replay (hsInv_mkInit tn pw) es
  refine ⟨hinv.1, hinv.2, ?_, ?_⟩
  · intro hns
    have hc : (r.helloReceived && r.snapshotReceived && !r.connectedSet) = false := by
      cases hh : r.helloReceived with
      | false => rfl
      | true =>
        cases hs : r.snapshotReceived with
        | false => rfl
        | true => exact absurd ⟨hh, hs⟩ hns
    unfold HsRoom.trySetConnected
    simp [hc]
  · intro hh hs hcs hsn
    have hc : (r.helloReceived && r.snapshotReceived && !r.connectedSet) = true := by
      rw [hh, hs, hcs]; rfl
    constructor
    · intro ⟨ht0, htne⟩
      have hnick : r.targetNick ≠ 0 ∧
          (r.sessionNick = none ∨ some r.targetNick ≠ r.sessionNick) := by
        refine ⟨ht0, Or.inr ?_⟩
        rw [hsn]
        intro hcontra
        exact htne (Option.some.inj hcontra)
      unfold HsRoom.trySetConnected
      simp [hc, hnick]
    · intro hor
      have hnick : ¬(r.targetNick ≠ 0 ∧
          (r.sessionNick = none ∨ some r.targetNick ≠ r.sessionNick)) := by
        intro ⟨ht0, hd⟩
        cases hor with
        | inl h0 => exact ht0 h0
        | inr hteq =>
          cases hd with
          | inl hnone => rw [hsn] at hnone; exact Option.noConfusion hnone
          | inr hne => rw [hsn, hteq] at hne; exact hne rfl
      unfold HsRoom.trySetConnected
      simp [hc, hnick]

/-- C6 witness: replaying hello (session nick 2) then snapshot on a fresh room
with target nick 1 reaches the connected state with both flags set, and
`_try_set_connected` on the pre-connect state issues the nick command before
setting the gate. -/
theorem C6_witness :
    ((HsRoom.mkInit 1 none).replay
        [HsEvent.hello 2 (some 5), HsEvent.snapshot none (some 5)]).helloReceived
      = true ∧
    ((HsRoom.mkInit 1 none).replay
        [HsEvent.hello 2 (some 5), HsEvent.snapshot none (some 5)]).snapshotReceived
      = true ∧
    (c6Room.trySetConnected (some 5)).2 =
      [HsAction.sendNick 1, HsAction.setConnected] ∧
    (c6Room.trySetConnected (some 5)).1.connectedSuccessfully = true := by
  have h := C6_connected_only_after_hello_and_snapshot 1 none
    [HsEvent.hello 2 (some 5), HsEvent.snapshot none (some 5)] c6Room 5 2
  have h4 := (h.2.2.2 rfl rfl rfl rfl).1 ⟨by decide, by decide⟩
  exact ⟨(h.1 rfl).1, (h.1 rfl).2, h4.1, h4.2⟩

/-! ### Listing lemmas -/

theorem getSess_some_id {l : Listing} {sid : Nat} {s : Sess}
    (h : l.getSess sid = some s) : s.sessionId = sid := by
  induction l with
  | nil => exact Option.noConfusion h
  | cons x rest ih =>
    unfold Listing.getSess at h
    split at h
    case isTrue hx =>
      obtain rfl := Option.some.inj h
      exact hx
    case isFalse hx => exact ih h

theorem getSess_none_id {l : Listing} {sid : Nat} (h : l.getSess sid = none) :
    ∀ x ∈ l, x.sessionId ≠ sid := by
  induction l with
  | nil => intro x hx; exact absurd hx (List.not_mem_nil x)
  | cons y rest ih =>
    unfold Listing.getSess at h
    split at h
    case isTrue hy => exact Option.noConfusion h
    case isFalse hy =>
      intro x hx
      rcases List.mem_cons.mp hx with rfl | hx2
      · exact hy
      · exact ih h x hx2

theorem mem_iff_getSess {l : Listing} (hn : NodupIds l) (s : Sess) :
    s ∈ l ↔ l.getSess s.sessionId = some s := by
  induction l with
  | nil => simp [Listing.getSess]
  | cons x rest ih =>
    obtain ⟨hx_notin, hn2⟩ : x.sessionId ∉ rest.map Sess.sessionId ∧
        (rest.map Sess.sessionId).Nodup := by
      simpa [NodupIds] using hn
    constructor
    · intro hmem
      rcases List.mem_cons.mp hmem with rfl | h2
      · unfold Listing.getSess
        rw [if_pos rfl]
      · unfold Listing.getSess
        by_cases hxe : x.sessionId = s.sessionId
        · exact absurd (hxe ▸ List.mem_map_of_mem Sess.sessionId h2) hx_notin
        · rw [if_neg hxe]
          exact (ih hn2).mp h2
    · intro hget
      unfold Listing.getSess at hget
      split at hget
      case isTrue hxe =>
        obtain rfl := Option.some.inj hget
        exact List.mem_cons_self x rest
      case isFalse hxe => exact List.mem_cons_of_mem x ((ih hn2).mpr hget)

theorem mem_withJoin {l : Listing} {s y : Sess} (h : y ∈ l.withJoin s) :
    y = s ∨ y ∈ l := by
  induction l with
  | nil =>
    unfold Listing.withJoin at h
    rw [List.mem_singleton] at h
    exact Or.inl h
  | cons x rest ih =>
    unfold Listing.withJoin at h
    split at h
    · rcases List.mem_cons.mp h with rfl | h2
      · exact Or.inl rfl
      · exact Or.inr (List.mem_cons_of_mem x h2)
    · rcases List.mem_cons.mp h with rfl | h2
      · exact Or.inr (List.mem_cons_self y rest)
      · rcases ih h2 with h3 | h3
        · exact Or.inl h3
        · exact Or.inr (List.mem_cons_of_mem x h3)

theorem nodup_withJoin {l : Listing} (hn : NodupIds l) (s : Sess) :
    NodupIds (l.withJoin s) := by
  induction l with
  | nil => simp [Listing.withJoin, NodupIds]
  | cons x rest ih =>
    obtain ⟨hx_notin, hn2⟩ : x.sessionId ∉ rest.map Sess.sessionId ∧
        (rest.map Sess.sessionId).Nodup := by
      simpa [NodupIds] using hn
    unfold Listing.withJoin
    split
    case isTrue hxe =>
      simp only [NodupIds, List.map_cons, List.nodup_cons]
      exact ⟨hxe ▸ hx_notin, hn2⟩
    case isFalse hxe =>
      simp only [NodupIds, List.map_cons, List.nodup_cons]
      refine ⟨?_, ih hn2⟩
      intro hcontra
      rcases List.mem_map.mp hcontra with ⟨y, hy, hyid⟩
      rcases mem_withJoin hy with rfl | hy2
      · exact hxe hyid.symm
      · exact hx_notin (hyid ▸ List.mem_map_of_mem Sess.sessionId hy2)

theorem nodup_filter {l : Listing} (hn : NodupIds l) (p : Sess → Bool) :
    NodupIds (l.filter p) :=
  List.Nodup.sublist (List.Sublist.map Sess.sessionId (List.filter_sublist l)) hn

theorem ids_withNick (l : Listing) (s : Sess) (nn : Nat) :
    (l.withNick s nn).map Sess.sessionId = l.map Sess.sessionId := by
  unfold Listing.withNick
  rw [List.map_map]
  apply List.map_congr_left
  intro x hx
  by_cases hxe : x.sessionId = s.sessionId
  · simp [hxe]
  · simp [hxe]

theorem mapLookup_pairIdL (l : Listing) (sid : Nat) :
    mapLookup (pairIdL l) sid = l.getSess sid := by
  induction l with
  | nil => rfl
  | cons x rest ih =>
    by_cases hx : x.sessionId = sid
    · simp [pairIdL, mapLookup, Listing.getSess, hx]
    · simp [pairIdL, mapLookup, Listing.getSess, hx]
      exact ih

theorem pairIdL_withJoin (l : Listing) (s : Sess) :
    pairIdL (l.withJoin s) = mapInsert (pairIdL l) s.sessionId s := by
  induction l with
  | nil => rfl
  | cons x rest ih =>
    by_cases hx : x.sessionId = s.sessionId
    · simp [pairIdL, Listing.withJoin, mapInsert, hx]
    · simp [pairIdL, Listing.withJoin, mapInsert, hx]
      exact ih

theorem pairIdL_withPart (l : Listing) (s : Sess) :
    pairIdL (l.withPart s) = (pairIdL l).filter fun e => e.1 != s.sessionId := by
  unfold Listing.withPart
  induction l with
  | nil => rfl
  | cons x rest ih =>
    by_cases hx : x.sessionId = s.sessionId
    · simp [pairIdL, List.filter_cons, hx]
      exact ih
    · simp [pairIdL, List.filter_cons, hx]
      exact ih

theorem pairIdL_filterPart (l : Listing) (sid era : Nat) :
    pairIdL (l.filter fun u => !(u.matchesPart sid era))
      = (pairIdL l).filter fun e => !(e.2.matchesPart sid era) := by
  induction l with
  | nil => rfl
  | cons x rest ih =>
    cases hm : x.matchesPart sid era
    · simp [pairIdL, List.filter_cons, hm]
      exact ih
    · simp [pairIdL, List.filter_cons, hm]
      exact ih

theorem pairIdL_withNick {l : Listing} {s : Sess} (nn : Nat) :
    pairIdL (l.withNick s nn)
      = (pairIdL l).map fun e =>
          if e.1 = s.sessionId then (e.1, { e.2 with nick := nn }) else e := by
  induction l with
  | nil => rfl
  | cons x rest ih =>
    by_cases hx : x.sessionId = s.sessionId
    · simp [pairIdL, Listing.withNick, hx] at ih ⊢
      exact ih
    · simp [pairIdL, Listing.withNick, hx] at ih ⊢
      exact ih

theorem netFold_eq_filter (sid era : Nat) :
    ∀ (iter acc : List Sess),
      (∀ x ∈ acc, ∀ u ∈ iter, x.sessionId = u.sessionId → x = u) →
      List.foldl
          (fun users u =>
            if u.matchesPart sid era then Listing.withPart users u else users)
          acc iter
        = acc.filter fun x => !(x.matchesPart sid era && idMem x iter) := by
  intro iter
  induction iter with
  | nil =>
    intro acc _
    simp [idMem]
  | cons u iter ih =>
    intro acc hacc
    simp only [List.foldl_cons]
    by_cases hm : u.matchesPart sid era = true
    · rw [if_pos hm]
      rw [ih (Listing.withPart acc u) (fun x hx v hv hxv =>
        hacc x (List.mem_of_mem_filter hx) v (List.mem_cons_of_mem u hv) hxv)]
      unfold Listing.withPart
      rw [List.filter_filter]
      apply List.filter_congr
      intro x hx
      by_cases hxu : x.sessionId = u.sessionId
      · have hxeq : x = u := hacc x hx u (List.mem_cons_self u iter) hxu
        subst hxeq
        simp [idMem, hm]
      · have hbe : (u.sessionId == x.sessionId) = false :=
          beq_eq_false_iff_ne.mpr (Ne.symm hxu)
        have hbne : (x.sessionId != u.sessionId) = true := bne_iff_ne.mpr hxu
        simp [idMem, hbe, hbne]
    · rw [if_neg hm]
      rw [ih acc (fun x hx v hv hxv => hacc x hx v (List.mem_cons_of_mem u hv) hxv)]
      apply List.filter_congr
      intro x hx
      by_cases hxu : x.sessionId = u.sessionId
      · have hxeq : x = u := hacc x hx u (List.mem_cons_self u iter) hxu
        subst hxeq
        have hmx : x.matchesPart sid era = false := by
          cases hmm : x.matchesPart sid era
          · rfl
          · exact absurd hmm hm
        simp [hmx]
      · have hbe : (u.sessionId == x.sessionId) = false :=
          beq_eq_false_iff_ne.mpr (Ne.symm hxu)
        simp [idMem, hbe]

theorem onNetworkEventL_eq_filter {l : Listing} (hn : NodupIds l) (sid era : Nat) :
    onNetworkEventL l sid era = l.filter fun u => !(u.matchesPart sid era) := by
  unfold onNetworkEventL
  rw [netFold_eq_filter sid era l l (fun x hx u hu hxu =>
    List.inj_on_of_nodup_map hn hx hu hxu)]
  apply List.filter_congr
  intro x hx
  have hidm : idMem x l = true := by
    unfold idMem
    rw [List.any_eq_true]
    exact ⟨x, hx, by simp⟩
  simp [hidm]

theorem implStep_spec {l : Listing} (hn : NodupIds l) (e : ListEvent) {l2 : Listing}
    (hstep : implStepL l e = some l2) :
    NodupIds l2 ∧ specStepL (pairIdL l) e = pairIdL l2 := by
  cases e with
  | join s =>
    obtain rfl := Option.some.inj hstep
    exact ⟨nodup_withJoin hn s, (pairIdL_withJoin l s).symm⟩
  | part s =>
    obtain rfl := Option.some.inj hstep
    refine ⟨nodup_filter hn _, ?_⟩
    show (pairIdL l).filter _ = pairIdL (l.withPart s)
    rw [pairIdL_withPart]
  | network sid era =>
    obtain rfl := Option.some.inj hstep
    have he := onNetworkEventL_eq_filter hn sid era
    constructor
    · rw [he]
      exact nodup_filter hn _
    · show (pairIdL l).filter _ = pairIdL (onNetworkEventL l sid era)
      rw [he, pairIdL_filterPart]
  | nick sid nn =>
    simp only [implStepL, onNickEventL] at hstep
    cases hget : l.getSess sid with
    | none =>
      rw [hget] at hstep
      exact Option.noConfusion (show (none : Option Listing) = some l2 from hstep)
    | some s =>
      rw [hget] at hstep
      have hstep2 : some (l.withNick s nn) = some l2 := hstep
      obtain rfl := Option.some.inj hstep2
      have hsid := getSess_some_id hget
      constructor
      · show NodupIds (l.withNick s nn)
        unfold NodupIds
        rw [ids_withNick]
        exact hn
      · show (pairIdL l).map _ = pairIdL (l.withNick s nn)
        rw [pairIdL_withNick nn, hsid]

theorem implReplay_spec : ∀ (es : List ListEvent) (l : Listing), NodupIds l →
    ∀ l2, implReplayL l es = some l2 →
    NodupIds l2 ∧ specReplayL (pairIdL l) es = pairIdL l2 := by
  intro es
  induction es with
  | nil =>
    intro l hn l2 h
    have h2 : some l = some l2 := h
    obtain rfl := Option.some.inj h2
    exact ⟨hn, rfl⟩
  | cons e es ih =>
    intro l hn l2 h
    unfold implReplayL at h
    cases hstep : implStepL l e with
    | none =>
      rw [hstep] at h
      exact Option.noConfusion (show (none : Option Listing) = some l2 from h)
    | some lmid =>
      rw [hstep] at h
      obtain ⟨hn2, hcorr⟩ := implStep_spec hn e hstep
      obtain ⟨hn3, hcorr2⟩ := ih lmid hn2 l2 h
      refine ⟨hn3, ?_⟩
      show specReplayL (specStepL (pairIdL l) e) es = pairIdL l2
      rw [hcorr]
      exact hcorr2

/-- C7: for every scripted sequence of join/part/network-partition/nick events
that the room.py handlers can replay from the empty listing (i.e. every nick
event references a then-known session; an unknown one triggers a who() resync
fed by fresh server data, outside a scripted replay), the resulting listing
contains exactly the sessions implied by replaying the sequence from the empty
mapping under the claim's own rules: join inserts the session, part removes by
session_id, a network partition removes all sessions matching
(server_id, server_era), nick updates the stored nick.  The listing operations
are spec-modelled (`LiveSessionListing` is absent from src/); the handlers —
in particular the partition handler's iterated `with_part` loop and the nick
handler's lookup — are embedded from room.py. -/
theorem C7_listing_replay_matches_spec (es : List ListEvent) (l : Listing)
    (h : implReplayL [] es = some l) (s : Sess) :
    s ∈ l ↔ mapLookup (specReplayL [] es) s.sessionId = some s := by
  obtain ⟨hn, hcorr⟩ := implReplay_spec es [] List.nodup_nil l h
  have h2 : specReplayL [] es = pairIdL l := hcorr
  rw [h2, mapLookup_pairIdL]
  exact mem_iff_getSess hn s

/-- C7 witness: the claim's own example join(A), join(B), part(A) — the
handlers yield exactly the listing containing B, and the theorem transports
its membership to the reference mapping. -/
theorem C7_witness :
    implReplayL [] [ListEvent.join sessA, ListEvent.join sessB, ListEvent.part sessA]
      = some [sessB] ∧
    mapLookup (specReplayL []
        [ListEvent.join sessA, ListEvent.join sessB, ListEvent.part sessA])
      sessB.sessionId = some sessB := by
  refine ⟨by decide, ?_⟩
  exact (C7_listing_replay_matches_spec
    [ListEvent.join sessA, ListEvent.join sessB, ListEvent.part sessA]
    [sessB] (by decide) sessB).mp (by decide)

/-- C3 counterexample: the claim states that after `who()` the Room's users
listing equals exactly the listing decoded from the who reply.  room.py
495-510 instead removes the Room's own session from the reply before
installing it (`self._users = users.with_part(self._session)`) whenever the
own session appears in the reply — which is the normal case, since a who reply
lists the caller too.  Concretely: own session A (id 1), reply listing
[A2, B] where A2 is A's id with a newer nick: the installed listing is [B],
not [A2, B]. -/
theorem C3_counterexample_who_removes_own_session :
    whoUpdate sessA [sessA2, sessB] = (sessA2, [sessB]) ∧
    decide ((whoUpdate sessA [sessA2, sessB]).2 = [sessA2, sessB]) = false := by
  decide

/-- C3 (amended): after `who()` returns, the Room's users listing equals the
listing decoded from the who reply with any entry matching the Room's own
session id removed (when the own session does not appear in the reply, that
filter removes nothing and the listing is installed wholesale); the Room's
own session is replaced by the reply's entry for it when present. -/
theorem C3_amended_who_installs_reply_minus_own (sess : Sess) (reply : Listing) :
    (whoUpdate sess reply).2
      = reply.filter (fun x => x.sessionId != sess.sessionId) ∧
    (whoUpdate sess reply).1 = (reply.getSess sess.sessionId).getD sess := by
  unfold whoUpdate
  cases hget : reply.getSess sess.sessionId with
  | none =>
    refine ⟨?_, rfl⟩
    show reply = _
    symm
    rw [List.filter_eq_self]
    intro x hx
    exact bne_iff_ne.mpr (getSess_none_id hget x hx)
  | some s =>
    have hsid := getSess_some_id hget
    refine ⟨?_, rfl⟩
    show reply.withPart s = _
    unfold Listing.withPart
    apply List.filter_congr
    intro x hx
    rw [hsid]

/-- C4 counterexample: the claim states all six command operations (send,
nick, log, get, who, pm) first call `_ensure_connected()`.  `Room.pm`
(room.py 550-562) never calls it: with the gate settled unsuccessfully,
`Room.send` raises `RoomNotConnectedException` after only the ensure call,
while `Room.pm` goes straight to `Connection.send("pm-initiate", ...)` and
completes — its first (and only) action is the wire send, not the ensure. -/
theorem C4_counterexample_pm_skips_ensure :
    roomPmCmd { connectedSet := true, connectedSuccessfully := false }
      = ([CmdAct.connSend PType.pmInitiate], CmdOutcome.completed) ∧
    (roomPmCmd { connectedSet := true, connectedSuccessfully := false }).1.head?
      = some (CmdAct.connSend PType.pmInitiate) ∧
    roomSendCmd { connectedSet := true, connectedSuccessfully := false }
      = ([CmdAct.ensure], CmdOutcome.raisesNotConnected) := by
  decide

/-- C4 (amended): five of the six command operations — send, nick, log, get,
who — first call `_ensure_connected()` (blocking while the gate is unset,
raising a not-connected error when it settled unsuccessfully, in both cases
issuing no `Connection.send`), and when the gate settled successfully each
issues exactly one `Connection.send` of its packet type and awaits the reply.
`Room.pm` issues exactly one `Connection.send("pm-initiate", ...)` but does
not call `_ensure_connected()` at all. -/
theorem C4_amended_five_ensure_pm_does_not (g : Gate) :
    ((roomSendCmd g).1.head? = some CmdAct.ensure ∧
     (roomNickCmd g).1.head? = some CmdAct.ensure ∧
     (roomLogCmd g).1.head? = some CmdAct.ensure ∧
     (roomGetCmd g).1.head? = some CmdAct.ensure ∧
     (roomWhoCmd g).1.head? = some CmdAct.ensure) ∧
    (g.connectedSet = true → g.connectedSuccessfully = true →
      roomSendCmd g = ([CmdAct.ensure, CmdAct.connSend PType.send],
        CmdOutcome.completed) ∧
      roomNickCmd g = ([CmdAct.ensure, CmdAct.connSend PType.nick],
        CmdOutcome.completed) ∧
      roomLogCmd g = ([CmdAct.ensure, CmdAct.connSend PType.log],
        CmdOutcome.completed) ∧
      roomGetCmd g = ([CmdAct.ensure, CmdAct.connSend PType.getMessage],
        CmdOutcome.completed) ∧
      roomWhoCmd g = ([CmdAct.ensure, CmdAct.connSend PType.who],
        CmdOutcome.completed) ∧
      sendCount (roomSendCmd g).1 = 1 ∧ sendCount (roomNickCmd g).1 = 1 ∧
      sendCount (roomLogCmd g).1 = 1 ∧ sendCount (roomGetCmd g).1 = 1 ∧
      sendCount (roomWhoCmd g).1 = 1) ∧
    (g.connectedSet = true → g.connectedSuccessfully = false →
      roomSendCmd g = ([CmdAct.ensure], CmdOutcome.raisesNotConnected) ∧
      roomNickCmd g = ([CmdAct.ensure], CmdOutcome.raisesNotConnected) ∧
      roomLogCmd g = ([CmdAct.ensure], CmdOutcome.raisesNotConnected) ∧
      roomGetCmd g = ([CmdAct.ensure], CmdOutcome.raisesNotConnected) ∧
      roomWhoCmd g = ([CmdAct.ensure], CmdOutcome.raisesNotConnected)) ∧
    (g.connectedSet = false →
      roomSendCmd g = ([CmdAct.ensure], CmdOutcome.blocks) ∧
      roomNickCmd g = ([CmdAct.ensure], CmdOutcome.blocks) ∧
      roomLogCmd g = ([CmdAct.ensure], CmdOutcome.blocks) ∧
      roomGetCmd g = ([CmdAct.ensure], CmdOutcome.blocks) ∧
      roomWhoCmd g = ([CmdAct.ensure], CmdOutcome.blocks)) ∧
    (roomPmCmd g = ([CmdAct.connSend PType.pmInitiate], CmdOutcome.completed) ∧
     sendCount (roomPmCmd g).1 = 1 ∧
     (roomPmCmd g).1.head? = some (CmdAct.connSend PType.pmInitiate)) := by
  obtain ⟨cs, csu⟩ := g
  cases cs <;> cases csu <;>
    refine ⟨by decide, ?_, ?_, ?_, by decide⟩ <;>
    intros <;>
    first
      | decide
      | simp_all

/-- C4 witness: the amended theorem applied to a successfully connected gate. -/
theorem C4_amended_witness :
    roomSendCmd { connectedSet := true, connectedSuccessfully := true }
      = ([CmdAct.ensure, CmdAct.connSend PType.send], CmdOutcome.completed) ∧
    roomPmCmd { connectedSet := true, connectedSuccessfully := true }
      = ([CmdAct.connSend PType.pmInitiate], CmdOutcome.completed) := by
  have h := C4_amended_five_ensure_pm_does_not
    { connectedSet := true, connectedSuccessfully := true }
  exact ⟨(h.2.1 rfl rfl).1, h.2.2.2.2.1⟩

/-- C10: each of the seven Optional-backed Room properties (session, account,
private, version, users, pm_with_nick, pm_with_user_id) raises
`RoomNotConnectedException` exactly when its backing field is still `None` —
never returning `None` or a default — and on a freshly constructed Room
(all fields `None`, room.py 77-84) every one of them raises. -/
theorem C10_properties_raise_while_none (r : RoomFields) :
    (RoomFields.mkInitF.sessionProp = Except.error RoomError.roomNotConnected ∧
     RoomFields.mkInitF.accountProp = Except.error RoomError.roomNotConnected ∧
     RoomFields.mkInitF.privateProp = Except.error RoomError.roomNotConnected ∧
     RoomFields.mkInitF.versionProp = Except.error RoomError.roomNotConnected ∧
     RoomFields.mkInitF.usersProp = Except.error RoomError.roomNotConnected ∧
     RoomFields.mkInitF.pmWithNickProp = Except.error RoomError.roomNotConnected ∧
     RoomFields.mkInitF.pmWithUserIdProp = Except.error RoomError.roomNotConnected) ∧
    ((r.sessionProp = Except.error RoomError.roomNotConnected ↔ r.sessionF = none) ∧
     (r.accountProp = Except.error RoomError.roomNotConnected ↔ r.accountF = none) ∧
     (r.privateProp = Except.error RoomError.roomNotConnected ↔ r.privateF = none) ∧
     (r.versionProp = Except.error RoomError.roomNotConnected ↔ r.versionF = none) ∧
     (r.usersProp = Except.error RoomError.roomNotConnected ↔ r.usersF = none) ∧
     (r.pmWithNickProp = Except.error RoomError.roomNotConnected ↔
       r.pmWithNickF = none) ∧
     (r.pmWithUserIdProp = Except.error RoomError.roomNotConnected ↔
       r.pmWithUserIdF = none)) := by
  refine ⟨by decide, ?_, ?_, ?_, ?_, ?_, ?_, ?_⟩
  · cases hf : r.sessionF <;> simp [RoomFields.sessionProp, wrapOptional, hf]
  · cases hf : r.accountF <;> simp [RoomFields.accountProp, wrapOptional, hf]
  · cases hf : r.privateF <;> simp [RoomFields.privateProp, wrapOptional, hf]
  · cases hf : r.versionF <;> simp [RoomFields.versionProp, wrapOptional, hf]
  · cases hf : r.usersF <;> simp [RoomFields.usersProp, wrapOptional, hf]
  · cases hf : r.pmWithNickF <;> simp [RoomFields.pmWithNickProp, wrapOptional, hf]
  · cases hf : r.pmWithUserIdF <;> simp [RoomFields.pmWithUserIdProp, wrapOptional, hf]
